import Mathlib

/-!
Verification of the nfl-fantasy league-analysis repository.

The definitions below are a shallow embedding of the Python source:

* `src/src/models.py` / `storage.py` / `analytics.py` / `extractor.py` —
  the typed Owner/Matchup pipeline (domain records, CSV persistence,
  head-to-head analytics, owner-id generation);
* `src/scripts/create_psychology_insights.py`,
  `create_temporal_dynamics_insights.py`, `cleanup_project.py` —
  the script pipeline over the "final dataset" rows.

Python floats are modelled as `ℚ`, Python `None` as `Option`,
machine ints as `Nat`/`Int`, pandas data frames as Lean lists.
-/

/-! ## Shared helpers -/

/-- Arithmetic mean of a list of rationals (`np.mean`); the empty list gives
`0/0 = 0`, which the source code only ever uses behind emptiness guards. -/
def meanQ (l : List ℚ) : ℚ := l.sum / l.length

/-! ## Script-pipeline data model

One row of `data/final_dataset/league_hard_knox_2017_2024_complete.csv`,
as consumed by the analysis scripts (components 6-13 of the spec):
season, week, team names, scores, manager names, winning manager
(absent when the winner cell is empty/NaN), playoff flag. -/

structure ScriptRow where
  season : ℕ
  week : ℕ
  team1 : String
  team2 : String
  team1_score : ℚ
  team2_score : ℚ
  manager1 : String
  manager2 : String
  winning_manager : Option String
  playoff : Bool
deriving DecidableEq, Repr

/-- The hardcoded 12-name active-manager roster shared by the analysis
scripts (`active_managers` in `create_psychology_insights.py` and
`create_temporal_dynamics_insights.py`). -/
def activeManagers : List String :=
  ["Hayden", "Michael", "Phoenix", "Billy", "Robbie", "Nelson",
   "Fraser", "Justin", "Angus", "Nic", "William", "James"]

/-- The filter `matchups_df[manager1.isin(active) & manager2.isin(active)]`
applied by each script's driver before any per-manager analysis. -/
def filterActive (rows : List ScriptRow) : List ScriptRow :=
  rows.filter (fun r => activeManagers.contains r.manager1 && activeManagers.contains r.manager2)

/-! ## C5 — Manager DNA "Defensive" axis (`create_psychology_insights.py`) -/

/-- The rows involving one manager:
`matchups_df[(manager1 == manager) | (manager2 == manager)]`. -/
def managerGames (rows : List ScriptRow) (manager : String) : List ScriptRow :=
  rows.filter (fun r => r.manager1 == manager || r.manager2 == manager)

/-- The `opponent_scores` list accumulated in `analyze_manager_dna`:
the other side's score in each of the manager's games. -/
def opponentScores (rows : List ScriptRow) (manager : String) : List ℚ :=
  (managerGames rows manager).map
    (fun r => if r.manager1 == manager then r.team2_score else r.team1_score)

/-- The Defensive DNA axis of `analyze_manager_dna`
(`create_psychology_insights.py` lines 247-250):
`league_opp_avg = avg_opp_score` and then
`max(0, min((1 - avg_opp_score / league_opp_avg) * 10 + 5, 10))`
when `league_opp_avg > 0`, else `5`. -/
def dnaDefensive (rows : List ScriptRow) (manager : String) : ℚ :=
  let avg_opp_score := meanQ (opponentScores rows manager)
  let league_opp_avg := avg_opp_score
  if 0 < league_opp_avg then
    max 0 (min ((1 - avg_opp_score / league_opp_avg) * 10 + 5) 10)
  else 5

/-! ## C6 — cleanup utility space-saved accumulator (`cleanup_project.py`) -/

/-- Running space-saved total of `cleanup_project`, over the byte sizes of
the deleted redundant directories, redundant scripts, and redundant data
files that existed.  Directories add `size / (1024 * 1024)` (lines 93-95);
scripts and files first compute `size = st_size / 1024` and then add
`size / 1024` (lines 107-108 and 131-132). -/
def cleanupSpaceSaved (dirBytes scriptBytes dataFileBytes : List ℕ) : ℚ :=
  ((dirBytes.map fun b : ℕ => (b : ℚ) / (1024 * 1024)).sum)
    + ((scriptBytes.map fun b : ℕ => ((b : ℚ) / 1024) / 1024).sum)
    + ((dataFileBytes.map fun b : ℕ => ((b : ℚ) / 1024) / 1024).sum)

/-- The accumulator as the claim describes it: directories contribute
megabytes and files contribute kilobytes, mixed into one total.
This definition follows the claim's words, for comparison with
`cleanupSpaceSaved`, which follows the source. -/
def cleanupSpaceSavedClaimed (dirBytes scriptBytes dataFileBytes : List ℕ) : ℚ :=
  ((dirBytes.map fun b : ℕ => (b : ℚ) / (1024 * 1024)).sum)
    + ((scriptBytes.map fun b : ℕ => (b : ℚ) / 1024).sum)
    + ((dataFileBytes.map fun b : ℕ => (b : ℚ) / 1024).sum)

/-! ## C9 — Gini coefficient (`create_temporal_dynamics_insights.py`) -/

/-- Ascending sort of the value list (`np.sort(values)`). -/
def sortQ (l : List ℚ) : List ℚ := List.insertionSort (fun a b => a ≤ b) l

/-- Rank-weighted sum `Σ index_i * value_i` with 1-based ranks
(`np.arange(1, n + 1)` dotted with the sorted values). -/
def weightedSum : ℕ → List ℚ → ℚ
  | _, [] => 0
  | i, v :: rest => (i : ℚ) * v + weightedSum (i + 1) rest

/-- The `calculate_gini` function (lines 365-371):
`(2 * Σ(rank * sorted_value)) / (n * Σ values) - (n + 1) / n`. -/
def calculate_gini (values : List ℚ) : ℚ :=
  (2 * weightedSum 1 (sortQ values)) / (((sortQ values).length : ℚ) * (sortQ values).sum)
    - (((sortQ values).length : ℚ) + 1) / ((sortQ values).length : ℚ)

/-- Python whitespace as matched by `\s` and `str.split()` (space, tab,
newline, carriage return, vertical tab, form feed). -/
def isPySpace (c : Char) : Bool :=
  c.toNat = 32 || c.toNat = 9 || c.toNat = 10 || c.toNat = 13 ||
    c.toNat = 11 || c.toNat = 12

/-- ASCII-range lowering performed by `owner_name.lower()`. -/
def pyLowerChar (c : Char) : Char :=
  if 65 ≤ c.toNat ∧ c.toNat ≤ 90 then Char.ofNat (c.toNat + 32) else c

/-- Characters kept by the character class `[a-zA-Z0-9]`. -/
def isAsciiAlnumChar (c : Char) : Bool :=
  (97 ≤ c.toNat && c.toNat ≤ 122) || (65 ≤ c.toNat && c.toNat ≤ 90) ||
    (48 ≤ c.toNat && c.toNat ≤ 57)

/-- The cleaned name `re.sub(r'[^a-zA-Z0-9\s]', '', owner_name.lower())`. -/
def cleanName (owner_name : List Char) : List Char :=
  (owner_name.map pyLowerChar).filter (fun c => isAsciiAlnumChar c || isPySpace c)

/-- Python `str.split()` with no argument: split on whitespace runs,
dropping empty tokens. -/
def pySplitWs (l : List Char) : List (List Char) :=
  (l.splitOnP isPySpace).filter (fun w => !w.isEmpty)

/-- The `_generate_owner_id` function (`extractor.py` lines 112-116):
underscore-join of the whitespace-split words of the cleaned name. -/
def generate_owner_id (owner_name : List Char) : List Char :=
  ['_'].intercalate (pySplitWs (cleanName owner_name))

/-! ## C10 — streak computation (`create_psychology_insights.py`) -/

/-- Signed streak value of one run of equal results: the run length,
positive for a win run and negative for a loss run. -/
def signedRun (b : Bool) (n : ℕ) : ℤ := if b then (n : ℤ) else -(n : ℤ)

/-- Loop body of `calculate_streaks` (lines 157-168): on an equal result
the current streak moves one step away from zero (the win branch adds
`1 if current_streak > 0 else 1`, which is 1 in both arms, and the loss
branch subtracts the same), and on a different result the current streak
is emitted and restarted at `1` or `-1`. -/
def calcStreaksLoop (prev : Bool) (cur : ℤ) : List Bool → List ℤ
  | [] => [cur]
  | r :: rest =>
    if r = prev then calcStreaksLoop r (if r then cur + 1 else cur - 1) rest
    else cur :: calcStreaksLoop r (if r then 1 else -1) rest

/-- The `calculate_streaks` function (lines 149-170); the empty result
list yields `[0]`. -/
def calculate_streaks : List Bool → List ℤ
  | [] => [0]
  | r :: rest => calcStreaksLoop r (if r then 1 else -1) rest

/-- Inner loop of the maximal-run decomposition: `b` is the value of the
run currently being read and `n` its length so far. -/
def runsGo (b : Bool) (n : ℕ) : List Bool → List (Bool × ℕ)
  | [] => [(b, n)]
  | c :: rest => if c = b then runsGo b (n + 1) rest else (b, n) :: runsGo c 1 rest

/-- The maximal runs of equal results of a win/loss sequence, each with
its length (the run-length encoding of the sequence). -/
def maximalRuns : List Bool → List (Bool × ℕ)
  | [] => []
  | b :: rest => runsGo b 1 rest

/-- The reported `max_win_streak` (line 113):
`max([s for s in streaks if s > 0] + [0])`. -/
def maxWinStreak (results : List Bool) : ℤ :=
  ((calculate_streaks results).filter (fun s => decide (0 < s))).foldr max 0

/-- The reported `max_lose_streak` (line 114):
`abs(min([s for s in streaks if s < 0] + [0]))`. -/
def maxLoseStreak (results : List Bool) : ℤ :=
  |((calculate_streaks results).filter (fun s => decide (s < 0))).foldr min 0|

/-- Length of the longest run of result `b`, computed from the maximal
runs. -/
def longestRun (b : Bool) (results : List Bool) : ℕ :=
  (((maximalRuns results).filter (fun p => p.1 == b)).map (fun p => p.2)).foldr max 0

/-! ## Typed domain model (`src/src/models.py`)

Python floats are `ℚ`, `Optional[...]` is `Option`, win/game counts and
year/week numbers are `ℕ`. -/

structure Owner where
  owner_id : String
  name : String
  email : Option String
deriving DecidableEq, Repr

structure Matchup where
  matchup_id : String
  season : ℕ
  week : ℕ
  team1_owner_id : String
  team2_owner_id : String
  team1_score : ℚ
  team2_score : ℚ
  winner_owner_id : Option String
  playoff : Bool
deriving DecidableEq, Repr

structure SeasonRecord where
  owner_id : String
  season : ℕ
  wins : ℕ
  losses : ℕ
  ties : ℕ
  points_for : ℚ
  points_against : ℚ
  final_rank : ℕ
  playoff_seed : Option ℕ
deriving DecidableEq, Repr

structure HeadToHeadRecord where
  owner1_id : String
  owner2_id : String
  owner1_wins : ℕ
  owner2_wins : ℕ
  owner1_points : ℚ
  owner2_points : ℚ
  total_games : ℕ
deriving DecidableEq, Repr

/-! ## C8 — rivalry competitiveness (`src/src/analytics.py`) -/

/-- Python's `round` to an integer: round half to even. -/
def roundHalfEven (x : ℚ) : ℤ :=
  if x - ⌊x⌋ < 1/2 then ⌊x⌋
  else if 1/2 < x - ⌊x⌋ then ⌊x⌋ + 1
  else if ⌊x⌋ % 2 = 0 then ⌊x⌋ else ⌊x⌋ + 1

/-- Python's `round(x, 3)`. -/
def pyRound3 (x : ℚ) : ℚ := (roundHalfEven (x * 1000) : ℚ) / 1000

/-- Python's `round(x, 1)`. -/
def pyRound1 (x : ℚ) : ℚ := (roundHalfEven (x * 10) : ℚ) / 10

/-- Lookup in the `owner_names` dict `{owner_id: name}` with a default;
the dict keeps the last entry for a duplicated `owner_id`, hence the
reversed search. -/
def ownerDisplayNameD (owners : List Owner) (oid : String) (dflt : String) : String :=
  match owners.reverse.find? (fun o => o.owner_id == oid) with
  | some o => o.name
  | none => dflt

/-- The `owner_names.get(id, id)` lookups of `get_rivalry_analysis`. -/
def ownerDisplayName (owners : List Owner) (oid : String) : String :=
  ownerDisplayNameD owners oid oid

/-- The competitiveness value before rounding (`analytics.py` line 248):
`1 - (win_diff / total_wins)` when `total_wins > 0`, else 0. -/
def rawCompetitiveness (r : HeadToHeadRecord) : ℚ :=
  if 0 < r.owner1_wins + r.owner2_wins then
    1 - |(r.owner1_wins : ℚ) - (r.owner2_wins : ℚ)|
          / ((r.owner1_wins : ℚ) + (r.owner2_wins : ℚ))
  else 0

/-- One rivalry dict of `get_rivalry_analysis` (lines 255-267). -/
structure RivalryEntry where
  owner1 : String
  owner2 : String
  total_games : ℕ
  owner1_wins : ℕ
  owner2_wins : ℕ
  competitiveness_score : ℚ
  avg_points_diff : ℚ
  series_leader : String
deriving DecidableEq, Repr

/-- Build the rivalry dict for one qualifying head-to-head record. -/
def mkRivalryEntry (owners : List Owner) (r : HeadToHeadRecord) : RivalryEntry :=
  { owner1 := ownerDisplayName owners r.owner1_id
    owner2 := ownerDisplayName owners r.owner2_id
    total_games := r.total_games
    owner1_wins := r.owner1_wins
    owner2_wins := r.owner2_wins
    competitiveness_score := pyRound3 (rawCompetitiveness r)
    avg_points_diff :=
      pyRound1 (if 0 < r.total_games then
        |r.owner1_points / (r.total_games : ℚ) - r.owner2_points / (r.total_games : ℚ)|
      else 0)
    series_leader :=
      ownerDisplayNameD owners
        (if r.owner2_wins < r.owner1_wins then r.owner1_id else r.owner2_id) "Tied" }

/-- The `get_rivalry_analysis` method (lines 234-273): filter stored
records by the minimum game count, build the rivalry dicts, and sort by
competitiveness score descending. -/
def get_rivalry_analysis (records : List HeadToHeadRecord) (owners : List Owner)
    (min_games : ℕ) : List RivalryEntry :=
  List.insertionSort (fun a b => b.competitiveness_score ≤ a.competitiveness_score)
    ((records.filter (fun r => min_games ≤ r.total_games)).map (mkRivalryEntry owners))

/-! ## C1 — head-to-head record calculation (`src/src/analytics.py`)

`calculate_head_to_head_records` accumulates a defaultdict from ordered
owner-id pairs to per-direction tallies, then collapses each unordered
pair into one `HeadToHeadRecord`.  The defaultdict is modelled as an
insertion-ordered association list with zero-initialised entries. -/

structure H2HStats where
  wins : ℕ
  losses : ℕ
  points_for : ℚ
  points_against : ℚ
  games : ℕ
deriving DecidableEq, Repr

/-- The defaultdict's zero-initialised tally. -/
def H2HStats.zero : H2HStats := ⟨0, 0, 0, 0, 0⟩

/-- Componentwise addition of tallies (each `+=` in the source adds one
delta component). -/
def H2HStats.add (s t : H2HStats) : H2HStats :=
  ⟨s.wins + t.wins, s.losses + t.losses, s.points_for + t.points_for,
   s.points_against + t.points_against, s.games + t.games⟩

/-- Ordered owner-id pair key of the `h2h_stats` dict. -/
abbrev H2HKey := String × String

/-- Insertion-ordered association list modelling the `h2h_stats` dict. -/
abbrev H2HMap := List (H2HKey × H2HStats)

/-- Dict read with defaultdict semantics: a missing key reads as zero. -/
def H2HMap.find : H2HMap → H2HKey → H2HStats
  | [], _ => H2HStats.zero
  | e :: rest, k => if e.1 = k then e.2 else H2HMap.find rest k

/-- One `h2h_stats[key][field] += delta` update: add the delta to the
existing entry, or append a zero-initialised entry (defaultdict inserts
new keys at the end, in first-access order). -/
def H2HMap.bump : H2HMap → H2HKey → H2HStats → H2HMap
  | [], k, d => [(k, H2HStats.zero.add d)]
  | e :: rest, k, d =>
    if e.1 = k then (e.1, e.2.add d) :: rest else e :: H2HMap.bump rest k d

/-- The four points updates of one decided matchup (`analytics.py`
lines 49-53): points-for and points-against in both directions. -/
def h2hPoints (m : Matchup) (acc : H2HMap) : H2HMap :=
  (((acc.bump (m.team1_owner_id, m.team2_owner_id) ⟨0, 0, m.team1_score, 0, 0⟩).bump
      (m.team1_owner_id, m.team2_owner_id) ⟨0, 0, 0, m.team2_score, 0⟩).bump
      (m.team2_owner_id, m.team1_owner_id) ⟨0, 0, m.team2_score, 0, 0⟩).bump
      (m.team2_owner_id, m.team1_owner_id) ⟨0, 0, 0, m.team1_score, 0⟩

/-- The two game-count updates of one decided matchup (lines 55-57). -/
def h2hGames (m : Matchup) (acc : H2HMap) : H2HMap :=
  (acc.bump (m.team1_owner_id, m.team2_owner_id) ⟨0, 0, 0, 0, 1⟩).bump
    (m.team2_owner_id, m.team1_owner_id) ⟨0, 0, 0, 0, 1⟩

/-- Processing of one matchup (`analytics.py` lines 28-57): skip when
`winner_owner_id` is falsy (absent or empty), otherwise record the win
and loss for the two directions, then the points updates, then the game
counts, in source order. -/
def h2hStep (m : Matchup) (acc : H2HMap) : H2HMap :=
  match m.winner_owner_id with
  | none => acc
  | some w =>
    if w = "" then acc
    else if w = m.team1_owner_id then
      h2hGames m (h2hPoints m
        ((acc.bump (m.team1_owner_id, m.team2_owner_id) ⟨1, 0, 0, 0, 0⟩).bump
          (m.team2_owner_id, m.team1_owner_id) ⟨0, 1, 0, 0, 0⟩))
    else
      h2hGames m (h2hPoints m
        ((acc.bump (m.team2_owner_id, m.team1_owner_id) ⟨1, 0, 0, 0, 0⟩).bump
          (m.team1_owner_id, m.team2_owner_id) ⟨0, 1, 0, 0, 0⟩))

/-- The accumulation loop over all stored matchups. -/
def calcH2HStats (matchups : List Matchup) : H2HMap :=
  matchups.foldl (fun acc m => h2hStep m acc) []

/-- `tuple(sorted([owner1, owner2]))`: the unordered-pair key used for
deduplication. -/
def sortPair (a b : String) : H2HKey := if a ≤ b then (a, b) else (b, a)

/-- The collapsed record for one direction key, reading both directions
from the full dict (`analytics.py` lines 71-83). -/
def mkH2HRecord (full : H2HMap) (k : H2HKey) : HeadToHeadRecord :=
  { owner1_id := k.1
    owner2_id := k.2
    owner1_wins := (full.find (k.1, k.2)).wins
    owner2_wins := (full.find (k.2, k.1)).wins
    owner1_points := (full.find (k.1, k.2)).points_for
    owner2_points := (full.find (k.2, k.1)).points_for
    total_games := (full.find (k.1, k.2)).games }

/-- The collapse loop (`analytics.py` lines 59-84): iterate the dict in
insertion order, skip a direction whose unordered pair was already
processed, and emit one record per unordered pair. -/
def collapseGo (full : H2HMap) :
    List (H2HKey × H2HStats) → List H2HKey → List HeadToHeadRecord
  | [], _ => []
  | (k, _) :: rest, processed =>
    let pk := sortPair k.1 k.2
    if pk ∈ processed then collapseGo full rest processed
    else mkH2HRecord full k :: collapseGo full rest (pk :: processed)

/-- `calculate_head_to_head_records` (lines 15-90).  The save of the
result through the storage layer is a side effect that does not alter
the returned records. -/
def calculate_head_to_head_records (matchups : List Matchup) : List HeadToHeadRecord :=
  collapseGo (calcH2HStats matchups) (calcH2HStats matchups) []

/-- Directional tally invariant: the two directions of a pair share one
game count through their win totals, and one direction's points-for is
the opposite direction's points-against. -/
def H2HInv (acc : H2HMap) : Prop :=
  ∀ a b : String,
    (acc.find (a, b)).wins + (acc.find (b, a)).wins = (acc.find (a, b)).games
    ∧ (acc.find (a, b)).points_for = (acc.find (b, a)).points_against

/-! ## C4 — bad beats (`create_temporal_dynamics_insights.py`)

`create_temporal_dynamics_insights` filters the dataset to matchups
between active managers (lines 30-33) and passes the filtered frame to
`analyze_temporal_patterns` (line 42), so `analyze_bad_beats` computes
its per-season averages from that already-filtered frame. -/

structure BadBeat where
  season : ℕ
  week : ℕ
  manager : String
  team : String
  score : ℚ
  opponent : String
  opponent_score : ℚ
  margin : ℚ
  season_avg : ℚ
  above_avg : ℚ
  playoff : Bool
deriving DecidableEq, Repr

/-- Per-season league average of the frame handed to `analyze_bad_beats`
(lines 136-140): the mean of all team1 and team2 scores of that season's
rows, with the `.get(season, 120)` default for a season absent from the
frame. -/
def seasonAverage (rows : List ScriptRow) (season : ℕ) : ℚ :=
  let ss := rows.filter (fun r => r.season == season)
  if ss.isEmpty then 120
  else meanQ (ss.map (fun r => r.team1_score) ++ ss.map (fun r => r.team2_score))

/-- The bad-beat dict appended for a losing team1 (lines 150-162). -/
def badBeatOfTeam1 (avg : ℚ) (r : ScriptRow) : BadBeat :=
  ⟨r.season, r.week, r.manager1, r.team1, r.team1_score, r.manager2, r.team2_score,
   r.team2_score - r.team1_score, avg, r.team1_score - avg, r.playoff⟩

/-- The bad-beat dict appended for a losing team2 (lines 169-181). -/
def badBeatOfTeam2 (avg : ℚ) (r : ScriptRow) : BadBeat :=
  ⟨r.season, r.week, r.manager2, r.team2, r.team2_score, r.manager1, r.team1_score,
   r.team1_score - r.team2_score, avg, r.team2_score - avg, r.playoff⟩

/-- The two per-row bad-beat checks (lines 146-181): the manager is in
the active list, scored at least 20 above the season average, and is not
the recorded winning manager. -/
def rowBadBeats (active : List String) (avg : ℚ) (r : ScriptRow) : List BadBeat :=
  (if active.contains r.manager1 && decide (avg + 20 ≤ r.team1_score)
      && !(r.winning_manager == some r.manager1) then [badBeatOfTeam1 avg r] else [])
    ++ (if active.contains r.manager2 && decide (avg + 20 ≤ r.team2_score)
      && !(r.winning_manager == some r.manager2) then [badBeatOfTeam2 avg r] else [])

/-- `analyze_bad_beats` (lines 130-183) over the frame it receives:
collect the per-row entries and sort by (above_avg, margin) descending. -/
def analyze_bad_beats (rows : List ScriptRow) (active : List String) : List BadBeat :=
  List.insertionSort
    (fun a b => b.above_avg < a.above_avg ∨ (b.above_avg = a.above_avg ∧ b.margin ≤ a.margin))
    (rows.flatMap (fun r => rowBadBeats active (seasonAverage rows r.season) r))

/-- The bad-beats output of the temporal-insights pipeline: the driver
filters to active-manager matchups before calling `analyze_bad_beats`. -/
def temporalBadBeats (rows : List ScriptRow) : List BadBeat :=
  analyze_bad_beats (filterActive rows) activeManagers

/-- The bad-beats computation as the claim describes it: the qualifying
threshold uses the season average over all of that season's matchups,
not only the active-roster ones.  This definition follows the claim's
words, for comparison with `temporalBadBeats`, which follows the source
wiring. -/
def badBeatsClaimed (rows : List ScriptRow) : List BadBeat :=
  List.insertionSort
    (fun a b => b.above_avg < a.above_avg ∨ (b.above_avg = a.above_avg ∧ b.margin ≤ a.margin))
    ((filterActive rows).flatMap
      (fun r => rowBadBeats activeManagers (seasonAverage rows r.season) r))

/-- Concrete season used to separate the two averaging bases: two
active-roster matchups (scores 120-130 and 80-70) and one matchup
involving the departed manager "Zed" with scores 300-299. -/
def c4rows : List ScriptRow :=
  [⟨2020, 1, "T1", "T2", 120, 130, "Billy", "Hayden", some "Hayden", false⟩,
   ⟨2020, 2, "T3", "T4", 80, 70, "Michael", "Phoenix", some "Michael", false⟩,
   ⟨2020, 3, "T5", "T6", 300, 299, "Zed", "Robbie", some "Zed", false⟩]

/-! ## C2 / C3 — CSV storage layer (`src/src/storage.py`)

A CSV file is modelled as a header row plus one list of typed cells per
entity; `Option CSVFile` is the on-disk state (`none` = file absent).
Each `save_*` method returns early on an empty list (writing nothing) and
otherwise rewrites the whole file; each `load_*` method returns `[]` for
a missing file and otherwise parses every row.

On disk every cell is text, so the writer side must collapse exactly what
`csv.writer` collapses: a string field holding `""` produces an empty
cell, indistinguishable from the empty cell that Python's
falsy-coalescing `x or ''` writes for `None`, for an empty string and for
a zero `playoff_seed` (`strCell` / `optStrCell` / `optSeedCell` below).
On the loader side `pd.read_csv` reads an empty cell as NaN, and
column-wide type inference can turn a written string into a non-string
value (an all-digit id column loads as `int64`, the NA tokens load as
NaN, boolean and infinity tokens as `bool`/`float`).  The model therefore
reads a string cell back as a string only when its text is one pandas is
guaranteed to return verbatim (`plainStringCell`), and treats every other
outcome — NaN where a string is expected, or a possibly type-coerced
value — as a failed load (`none`).  That direction is conservative: the
model never succeeds where the source corrupts, though pandas may happen
to preserve some texts the model refuses. -/

inductive Cell where
  | str (s : String)
  | nat (n : ℕ)
  | rat (q : ℚ)
  | bool (b : Bool)
  | empty
deriving DecidableEq, Repr

structure CSVFile where
  header : List String
  rows : List (List Cell)
deriving DecidableEq, Repr

/-- The cell written for a mandatory string field: `csv.writer` writes
the text verbatim, so the empty string produces an empty cell — on disk
identical to an absent optional value. -/
def strCell (s : String) : Cell :=
  if s = "" then Cell.empty else Cell.str s

/-- The cell written by `value or ''` for an optional string: `None` and
`''` both become the empty cell. -/
def optStrCell : Option String → Cell
  | none => Cell.empty
  | some s => strCell s

/-- The cell written by `record.playoff_seed or ''`: `None` and `0` both
become the empty cell. -/
def optSeedCell : Option ℕ → Cell
  | none => Cell.empty
  | some n => if n = 0 then Cell.empty else Cell.nat n

def ownerToRow (o : Owner) : List Cell :=
  [strCell o.owner_id, strCell o.name, optStrCell o.email]

def matchupToRow (m : Matchup) : List Cell :=
  [strCell m.matchup_id, Cell.nat m.season, Cell.nat m.week,
   strCell m.team1_owner_id, strCell m.team2_owner_id,
   Cell.rat m.team1_score, Cell.rat m.team2_score,
   optStrCell m.winner_owner_id, Cell.bool m.playoff]

def seasonRecordToRow (r : SeasonRecord) : List Cell :=
  [strCell r.owner_id, Cell.nat r.season, Cell.nat r.wins, Cell.nat r.losses,
   Cell.nat r.ties, Cell.rat r.points_for, Cell.rat r.points_against,
   Cell.nat r.final_rank, optSeedCell r.playoff_seed]

def h2hRecordToRow (r : HeadToHeadRecord) : List Cell :=
  [strCell r.owner1_id, strCell r.owner2_id, Cell.nat r.owner1_wins,
   Cell.nat r.owner2_wins, Cell.rat r.owner1_points, Cell.rat r.owner2_points,
   Cell.nat r.total_games]

def ownersHeader : List String := ["owner_id", "name", "email"]

def matchupsHeader : List String :=
  ["matchup_id", "season", "week", "team1_owner_id", "team2_owner_id",
   "team1_score", "team2_score", "winner_owner_id", "playoff"]

def seasonRecordsHeader : List String :=
  ["owner_id", "season", "wins", "losses", "ties",
   "points_for", "points_against", "final_rank", "playoff_seed"]

def headToHeadHeader : List String :=
  ["owner1_id", "owner2_id", "owner1_wins", "owner2_wins",
   "owner1_points", "owner2_points", "total_games"]

/-- `save_owners` (lines 41-57): return without writing when the list is
empty, otherwise overwrite the file with the header and one row per
owner. -/
def save_owners (owners : List Owner) (prev : Option CSVFile) : Option CSVFile :=
  if owners.isEmpty then prev
  else some ⟨ownersHeader, owners.map ownerToRow⟩

/-- `save_matchups` (lines 79-104). -/
def save_matchups (matchups : List Matchup) (prev : Option CSVFile) : Option CSVFile :=
  if matchups.isEmpty then prev
  else some ⟨matchupsHeader, matchups.map matchupToRow⟩

/-- `save_season_records` (lines 106-131). -/
def save_season_records (records : List SeasonRecord) (prev : Option CSVFile) :
    Option CSVFile :=
  if records.isEmpty then prev
  else some ⟨seasonRecordsHeader, records.map seasonRecordToRow⟩

/-- `save_head_to_head_records` (lines 156-179). -/
def save_head_to_head_records (records : List HeadToHeadRecord) (prev : Option CSVFile) :
    Option CSVFile :=
  if records.isEmpty then prev
  else some ⟨headToHeadHeader, records.map h2hRecordToRow⟩

/-- Sum of a list of `Nat` sizes divided by a constant, as a rational. -/
theorem sum_map_div_cast (l : List ℕ) (c : ℚ) :
    (l.map fun b : ℕ => (b : ℚ) / c).sum = (l.sum : ℚ) / c := by
  induction l with
  | nil => simp
  | cons b t ih =>
      rw [List.map_cons, List.sum_cons, ih, List.sum_cons]
      push_cast
      rw [add_div]

theorem two_mul_weightedSum_replicate (n : ℕ) (c : ℚ) :
    ∀ i : ℕ, 2 * weightedSum i (List.replicate n c)
      = c * (2 * (i : ℚ) * n + n * n - n) := by
  induction n with
  | zero => intro i; simp [weightedSum]
  | succ n ih =>
      intro i
      have : List.replicate (n + 1) c = c :: List.replicate n c := rfl
      rw [this]
      show 2 * ((i : ℚ) * c + weightedSum (i + 1) (List.replicate n c)) = _
      rw [mul_add, ih (i + 1)]
      push_cast
      ring

/-! ## C5 / C6 / C9 theorems -/

/-- C5: the Defensive axis of the Manager DNA profile equals 5 for every
manager and every matchup history (the formula compares the manager's
average points-allowed to itself). -/
theorem claim_C5_defensive_axis_constant (rows : List ScriptRow) (manager : String) :
    dnaDefensive rows manager = 5 := by
  unfold dnaDefensive
  by_cases h : 0 < meanQ (opponentScores rows manager)
  · rw [if_pos h, div_self (ne_of_gt h)]
    norm_num
  · rw [if_neg h]

/-- C6 counterexample: a deleted 1 MiB (1048576-byte) file contributes 1
to the running total — its size in megabytes — not 1024 (its size in
kilobytes) as the claim states, so the code's total differs from the
claim's mixed-unit total. -/
theorem claim_C6_counterexample :
    cleanupSpaceSaved [] [1048576] [] = 1
      ∧ cleanupSpaceSavedClaimed [] [1048576] [] = 1024
      ∧ cleanupSpaceSaved [] [1048576] [] ≠ cleanupSpaceSavedClaimed [] [1048576] [] := by
  refine ⟨?_, ?_, ?_⟩ <;> norm_num [cleanupSpaceSaved, cleanupSpaceSavedClaimed]

/-- C6 amended: the space-saved running total adds, for every deleted
directory, its size divided by 1024·1024 and, for every deleted file, its
size divided by 1024 and then by 1024 again — both in megabytes, so the
total the utility prints as megabytes is unit-consistent. -/
theorem claim_C6_amended_consistent_megabytes
    (dirBytes scriptBytes dataFileBytes : List ℕ) :
    cleanupSpaceSaved dirBytes scriptBytes dataFileBytes
      = ((dirBytes.sum : ℚ) + (scriptBytes.sum : ℚ) + (dataFileBytes.sum : ℚ))
          / (1024 * 1024) := by
  unfold cleanupSpaceSaved
  simp only [div_div]
  rw [sum_map_div_cast, sum_map_div_cast, sum_map_div_cast]
  push_cast
  ring

/-- C9 counterexample: for the win-percentage list `[0, 0]` — every
manager with the same (zero) win percentage — the rank-weighted formula
divides by a zero total and does not yield 0 (the Python code produces
NaN there; over exact arithmetic the expression equals `-3/2`). -/
theorem claim_C9_counterexample :
    calculate_gini [0, 0] ≠ 0 := by
  norm_num [calculate_gini, sortQ, List.insertionSort, List.orderedInsert, weightedSum]

/-- C9 amended: for every nonempty win-percentage list in which every
manager has the same nonzero win percentage, the Gini coefficient computed
by the rank-weighted formula equals 0. -/
theorem claim_C9_amended_equal_values_gini_zero
    (l : List ℚ) (c : ℚ) (hne : l ≠ []) (hall : ∀ x ∈ l, x = c) (hc : c ≠ 0) :
    calculate_gini l = 0 := by
  have hperm : List.Perm (sortQ l) l := List.perm_insertionSort _ l
  have hsorted : sortQ l = List.replicate (sortQ l).length c := by
    refine List.eq_replicate_length.mpr ?_
    intro b hb
    exact hall b (hperm.mem_iff.mp hb)
  have hlen : (sortQ l).length = l.length := hperm.length_eq
  have hn : l.length ≠ 0 := fun h => hne (List.eq_nil_of_length_eq_zero h)
  have hnq : (l.length : ℚ) ≠ 0 := Nat.cast_ne_zero.mpr hn
  have hs2 : sortQ l = List.replicate l.length c := by rw [← hlen]; exact hsorted
  unfold calculate_gini
  rw [hs2, List.length_replicate, List.sum_replicate, two_mul_weightedSum_replicate,
    nsmul_eq_mul]
  field_simp
  ring

/-- C9 amended, witness: the two-manager list `[1/2, 1/2]` of equal
nonzero win percentages has Gini coefficient 0. -/
theorem claim_C9_amended_equal_values_gini_zero_witness :
    ([(1 : ℚ)/2, 1/2] ≠ ([] : List ℚ)
        ∧ (∀ x ∈ [(1 : ℚ)/2, 1/2], x = 1/2) ∧ (1 : ℚ)/2 ≠ 0)
      ∧ calculate_gini [(1 : ℚ)/2, 1/2] = 0 := by
  refine ⟨⟨by simp, by simp, by norm_num⟩, ?_⟩
  exact claim_C9_amended_equal_values_gini_zero _ ((1 : ℚ)/2)
    (by simp) (by simp) (by norm_num)

/-! ## C7 — owner-ID generation (`src/src/extractor.py`)

`_generate_owner_id` lowercases the display name, strips every character
that is not an ASCII letter, digit or whitespace (the regex
`[^a-zA-Z0-9\s]`), splits on whitespace runs, and joins the words with
underscores.  Strings are modelled as `List Char`; Python's `str.lower`
is modelled on the ASCII range (every non-ASCII character is removed by
the regex filter anyway). -/

/-- Code point of a character built from a small scalar value. -/
theorem toNat_ofNat_small (n : ℕ) (h : n < 0xd800) : (Char.ofNat n).toNat = n := by
  rw [Char.ofNat, dif_pos (Or.inl h)]
  simp [Char.ofNatAux, Char.toNat, UInt32.toNat]

theorem splitOnP_chars (p : Char → Bool) :
    ∀ (l : List Char), ∀ w ∈ l.splitOnP p, ∀ c ∈ w, c ∈ l ∧ p c = false := by
  intro l
  induction l with
  | nil =>
      intro w hw c hc
      rw [List.splitOnP_nil] at hw
      simp at hw
      subst hw
      simp at hc
  | cons x xs ih =>
      intro w hw c hc
      rw [List.splitOnP_cons] at hw
      by_cases hx : p x
      · rw [if_pos hx] at hw
        rcases List.mem_cons.mp hw with h | h
        · subst h; simp at hc
        · obtain ⟨hcl, hcp⟩ := ih w h c hc
          exact ⟨List.mem_cons_of_mem _ hcl, hcp⟩
      · rw [if_neg hx] at hw
        cases hsp : xs.splitOnP p with
        | nil => exact absurd hsp (List.splitOnP_ne_nil p xs)
        | cons h t =>
            rw [hsp] at hw
            rcases List.mem_cons.mp hw with hw1 | hw2
            · subst hw1
              rcases List.mem_cons.mp hc with rfl | hch
              · exact ⟨List.mem_cons_self _ _, Bool.eq_false_iff.mpr hx⟩
              · obtain ⟨hcl, hcp⟩ := ih h (hsp ▸ List.mem_cons_self h t) c hch
                exact ⟨List.mem_cons_of_mem _ hcl, hcp⟩
            · obtain ⟨hcl, hcp⟩ :=
                ih w (hsp ▸ List.mem_cons_of_mem h hw2) c hc
              exact ⟨List.mem_cons_of_mem _ hcl, hcp⟩

theorem pySplitWs_sound (l : List Char) :
    ∀ w ∈ pySplitWs l, w ≠ [] ∧ ∀ c ∈ w, c ∈ l ∧ isPySpace c = false := by
  intro w hw
  obtain ⟨hmem, hne⟩ := List.mem_filter.mp hw
  refine ⟨by simpa using hne, ?_⟩
  intro c hc
  exact splitOnP_chars isPySpace l w hmem c hc

theorem cleanName_chars (name : List Char) :
    ∀ c ∈ cleanName name,
      ((97 ≤ c.toNat ∧ c.toNat ≤ 122) ∨ (48 ≤ c.toNat ∧ c.toNat ≤ 57))
        ∨ isPySpace c = true := by
  intro c hc
  obtain ⟨hmem, hp⟩ := List.mem_filter.mp hc
  obtain ⟨c₀, _, rfl⟩ := List.mem_map.mp hmem
  unfold pyLowerChar at hp ⊢
  by_cases h : 65 ≤ c₀.toNat ∧ c₀.toNat ≤ 90
  · rw [if_pos h]
    rw [if_pos h] at hp
    left; left
    rw [toNat_ofNat_small _ (by omega)]
    omega
  · rw [if_neg h]
    rw [if_neg h] at hp
    simp only [isAsciiAlnumChar, Bool.or_eq_true, Bool.and_eq_true,
      decide_eq_true_eq] at hp
    rcases hp with ((h1 | h2) | h3) | h4
    · exact Or.inl (Or.inl h1)
    · exact absurd h2 h
    · exact Or.inl (Or.inr h3)
    · exact Or.inr h4

theorem mem_of_mem_intersperse {α : Type} {sep a : α} :
    ∀ {xs : List α}, a ∈ List.intersperse sep xs → a = sep ∨ a ∈ xs := by
  intro xs
  induction xs with
  | nil => intro h; simp [List.intersperse] at h
  | cons x xs ih =>
      intro h
      cases xs with
      | nil => simp [List.intersperse] at h; simp [h]
      | cons y ys =>
          rw [show List.intersperse sep (x :: y :: ys)
              = x :: sep :: List.intersperse sep (y :: ys) from rfl] at h
          rcases List.mem_cons.mp h with rfl | h2
          · exact Or.inr (List.mem_cons_self _ _)
          · rcases List.mem_cons.mp h2 with rfl | h3
            · exact Or.inl rfl
            · rcases ih h3 with hs | hm
              · exact Or.inl hs
              · exact Or.inr (List.mem_cons_of_mem _ hm)

theorem mem_intercalate_single {α : Type} (x : α) (ls : List (List α)) (c : α)
    (hc : c ∈ List.intercalate [x] ls) : c = x ∨ ∃ w ∈ ls, c ∈ w := by
  rw [List.intercalate] at hc
  obtain ⟨l, hl, hcl⟩ := List.mem_flatten.mp hc
  rcases mem_of_mem_intersperse hl with rfl | hml
  · rcases List.mem_singleton.mp hcl with rfl
    exact Or.inl rfl
  · exact Or.inr ⟨l, hml, hcl⟩

/-- C7: owner-ID generation is deterministic; the generated ID contains
only lowercase ASCII letters, digits and underscores; splitting the ID at
its underscores recovers exactly the whitespace-separated words of the
cleaned name (so one underscore stands at each internal whitespace run,
and the words themselves are nonempty and whitespace-free); and
"Robbie G." maps to "robbie_g". -/
theorem claim_C7_owner_id_generation :
    (∀ name : List Char, generate_owner_id name = generate_owner_id name)
    ∧ (∀ name : List Char, ∀ c ∈ generate_owner_id name,
        (97 ≤ c.toNat ∧ c.toNat ≤ 122) ∨ (48 ≤ c.toNat ∧ c.toNat ≤ 57) ∨ c = '_')
    ∧ (∀ name : List Char, pySplitWs (cleanName name) ≠ [] →
        (generate_owner_id name).splitOn '_' = pySplitWs (cleanName name))
    ∧ (∀ name : List Char, ∀ w ∈ pySplitWs (cleanName name),
        w ≠ [] ∧ ∀ c ∈ w, isPySpace c = false)
    ∧ generate_owner_id "Robbie G.".toList = "robbie_g".toList := by
  refine ⟨fun _ => rfl, ?_, ?_, ?_, ?_⟩
  · intro name c hc
    rcases mem_intercalate_single '_' _ c hc with rfl | ⟨w, hw, hcw⟩
    · exact Or.inr (Or.inr rfl)
    · obtain ⟨-, hchars⟩ := pySplitWs_sound (cleanName name) w hw
      obtain ⟨hmem, hsp⟩ := hchars c hcw
      rcases cleanName_chars name c hmem with (h1 | h2) | h3
      · exact Or.inl h1
      · exact Or.inr (Or.inl h2)
      · rw [hsp] at h3; cases h3
  · intro name hne
    unfold generate_owner_id
    refine List.splitOn_intercalate _ '_' ?_ hne
    intro w hw hu
    obtain ⟨-, hchars⟩ := pySplitWs_sound (cleanName name) w hw
    obtain ⟨hmem, hsp⟩ := hchars '_' hu
    rcases cleanName_chars name '_' hmem with (h1 | h2) | h3
    · revert h1; decide
    · revert h2; decide
    · rw [hsp] at h3; cases h3
  · intro name w hw
    obtain ⟨hne, hchars⟩ := pySplitWs_sound (cleanName name) w hw
    exact ⟨hne, fun c hc => (hchars c hc).2⟩
  · decide

/-- C7 witness: at the concrete name "Robbie G." the cleaned name splits
into the nonempty word list and the generated ID's underscore-split
recovers it. -/
theorem claim_C7_owner_id_generation_witness :
    pySplitWs (cleanName "Robbie G.".toList) ≠ []
      ∧ (generate_owner_id "Robbie G.".toList).splitOn '_'
          = pySplitWs (cleanName "Robbie G.".toList) := by
  exact ⟨by decide, claim_C7_owner_id_generation.2.2.1 _ (by decide)⟩

theorem calcStreaksLoop_eq_runsGo :
    ∀ (rest : List Bool) (b : Bool) (n : ℕ),
      calcStreaksLoop b (signedRun b n) rest
        = (runsGo b n rest).map (fun p => signedRun p.1 p.2) := by
  intro rest
  induction rest with
  | nil => intro b n; simp [calcStreaksLoop, runsGo]
  | cons c rest ih =>
      intro b n
      by_cases hc : c = b
      · subst hc
        rw [calcStreaksLoop, runsGo, if_pos rfl, if_pos rfl]
        have hstep : (if c = true then signedRun c n + 1 else signedRun c n - 1)
            = signedRun c (n + 1) := by
          cases c <;> simp [signedRun] <;> omega
        rw [hstep, ih]
      · rw [calcStreaksLoop, runsGo, if_neg hc, if_neg hc]
        have hstart : (if c = true then (1 : ℤ) else -1) = signedRun c 1 := by
          cases c <;> simp [signedRun]
        rw [hstart, ih, List.map_cons]

theorem calculate_streaks_eq_signed_runs (results : List Bool) (h : results ≠ []) :
    calculate_streaks results = (maximalRuns results).map (fun p => signedRun p.1 p.2) := by
  cases results with
  | nil => exact absurd rfl h
  | cons r rest =>
      rw [calculate_streaks, maximalRuns]
      have hstart : (if r = true then (1 : ℤ) else -1) = signedRun r 1 := by
        cases r <;> simp [signedRun]
      rw [hstart, calcStreaksLoop_eq_runsGo]

theorem runsGo_flatten :
    ∀ (rest : List Bool) (b : Bool) (n : ℕ),
      ((runsGo b n rest).map (fun p => List.replicate p.2 p.1)).flatten
        = List.replicate n b ++ rest := by
  intro rest
  induction rest with
  | nil => intro b n; simp [runsGo]
  | cons c rest ih =>
      intro b n
      by_cases hc : c = b
      · subst hc
        rw [runsGo, if_pos rfl, ih, List.replicate_succ', List.append_assoc,
          List.singleton_append]
      · rw [runsGo, if_neg hc, List.map_cons, List.flatten_cons, ih]
        simp

theorem maximalRuns_flatten (results : List Bool) :
    ((maximalRuns results).map (fun p => List.replicate p.2 p.1)).flatten = results := by
  cases results with
  | nil => rfl
  | cons r rest => rw [maximalRuns, runsGo_flatten]; simp

theorem runsGo_pos :
    ∀ (rest : List Bool) (b : Bool) (n : ℕ), 0 < n →
      ∀ p ∈ runsGo b n rest, 0 < p.2 := by
  intro rest
  induction rest with
  | nil =>
      intro b n hn p hp
      rw [runsGo] at hp
      rcases List.mem_singleton.mp hp with rfl
      exact hn
  | cons c rest ih =>
      intro b n hn p hp
      by_cases hc : c = b
      · subst hc
        rw [runsGo, if_pos rfl] at hp
        exact ih c (n + 1) (Nat.succ_pos n) p hp
      · rw [runsGo, if_neg hc] at hp
        rcases List.mem_cons.mp hp with rfl | hp2
        · exact hn
        · exact ih c 1 Nat.one_pos p hp2

theorem maximalRuns_pos (results : List Bool) :
    ∀ p ∈ maximalRuns results, 0 < p.2 := by
  cases results with
  | nil => intro p hp; simp [maximalRuns] at hp
  | cons r rest => exact runsGo_pos rest r 1 Nat.one_pos

theorem runsGo_head :
    ∀ (rest : List Bool) (b : Bool) (n : ℕ),
      (runsGo b n rest).head?.map Prod.fst = some b := by
  intro rest
  induction rest with
  | nil => intro b n; rw [runsGo]; rfl
  | cons c rest ih =>
      intro b n
      by_cases hc : c = b
      · subst hc; rw [runsGo, if_pos rfl]; exact ih c (n + 1)
      · rw [runsGo, if_neg hc]; rfl

theorem runsGo_alternating :
    ∀ (rest : List Bool) (b : Bool) (n : ℕ),
      List.Chain' (fun p q => p.1 ≠ q.1) (runsGo b n rest) := by
  intro rest
  induction rest with
  | nil => intro b n; rw [runsGo]; exact List.chain'_singleton _
  | cons c rest ih =>
      intro b n
      by_cases hc : c = b
      · subst hc; rw [runsGo, if_pos rfl]; exact ih c (n + 1)
      · rw [runsGo, if_neg hc]
        refine List.chain'_cons'.mpr ⟨?_, ih c 1⟩
        intro q hq
        have hq1 : (runsGo c 1 rest).head? = some q := Option.mem_def.mp hq
        have hhead := runsGo_head rest c 1
        rw [hq1] at hhead
        have hq2 : q.1 = c := by simpa using hhead
        simp only [ne_eq, hq2]
        exact fun hbc => hc hbc.symm

theorem maximalRuns_alternating (results : List Bool) :
    List.Chain' (fun p q => p.1 ≠ q.1) (maximalRuns results) := by
  cases results with
  | nil => exact List.chain'_nil
  | cons r rest => exact runsGo_alternating rest r 1

theorem signedRun_true (n : ℕ) : signedRun true n = (n : ℤ) := rfl

theorem signedRun_false (n : ℕ) : signedRun false n = -(n : ℤ) := rfl

theorem filter_pos_signed (runs : List (Bool × ℕ)) (hpos : ∀ p ∈ runs, 0 < p.2) :
    (runs.map (fun p => signedRun p.1 p.2)).filter (fun s => decide (0 < s))
      = (runs.filter (fun p => p.1 == true)).map (fun p => (p.2 : ℤ)) := by
  induction runs with
  | nil => rfl
  | cons p t ih =>
      have hp := hpos p (List.mem_cons_self p t)
      have iht := ih (fun q hq => hpos q (List.mem_cons_of_mem p hq))
      obtain ⟨b, n⟩ := p
      cases b
      · have hcond : decide (0 < signedRun false n) = false := by
          simp [signedRun_false]
        simp [List.filter_cons, hcond, iht]
      · have hcond : decide (0 < signedRun true n) = true := by
          simp only [signedRun_true, decide_eq_true_eq]
          exact_mod_cast hp
        have hp' : 0 < n := hp
        simp [List.filter_cons, hcond, iht, signedRun_true]
        omega

theorem filter_neg_signed (runs : List (Bool × ℕ)) (hpos : ∀ p ∈ runs, 0 < p.2) :
    (runs.map (fun p => signedRun p.1 p.2)).filter (fun s => decide (s < 0))
      = (runs.filter (fun p => p.1 == false)).map (fun p => -(p.2 : ℤ)) := by
  induction runs with
  | nil => rfl
  | cons p t ih =>
      have hp := hpos p (List.mem_cons_self p t)
      have iht := ih (fun q hq => hpos q (List.mem_cons_of_mem p hq))
      obtain ⟨b, n⟩ := p
      cases b
      · have hcond : decide (signedRun false n < 0) = true := by
          simp only [signedRun_false, decide_eq_true_eq, neg_neg, Left.neg_neg_iff]
          exact_mod_cast hp
        have hp' : 0 < n := hp
        simp [List.filter_cons, hcond, iht, signedRun_false]
        omega
      · have hcond : decide (signedRun true n < 0) = false := by
          simp [signedRun_true]
        simp [List.filter_cons, hcond, iht]

theorem foldr_max_cast (l : List (Bool × ℕ)) :
    ((l.map (fun p => ((p.2 : ℕ) : ℤ))).foldr max 0)
      = (((l.map (fun p => p.2)).foldr max 0 : ℕ) : ℤ) := by
  induction l with
  | nil => rfl
  | cons p t ih => simp [ih, Nat.cast_max]

theorem foldr_min_neg_cast (l : List (Bool × ℕ)) :
    ((l.map (fun p => -((p.2 : ℕ) : ℤ))).foldr min 0)
      = -(((l.map (fun p => p.2)).foldr max 0 : ℕ) : ℤ) := by
  induction l with
  | nil => simp
  | cons p t ih =>
      simp only [List.map_cons, List.foldr_cons, ih, Nat.cast_max, min_neg_neg]

/-- C10 counterexample: for the empty win/loss sequence (a manager with no
games) `calculate_streaks` returns `[0]`, which is not one signed entry
per maximal run — the empty sequence has no runs at all. -/
theorem claim_C10_counterexample :
    calculate_streaks [] ≠ (maximalRuns []).map (fun p => signedRun p.1 p.2) := by
  decide

/-- C10 amended: for every nonempty chronological win/loss sequence,
`calculate_streaks` returns exactly one signed entry per maximal run of
equal results, the entry's absolute value being the run's length
(`maximalRuns` really is the maximal-run decomposition: its runs
concatenate back to the sequence, have positive lengths, and adjacent
runs carry different results); and for every sequence — including the
empty one, where `calculate_streaks` returns `[0]` — the reported longest
win streak equals the length of the longest run of consecutive wins and
the reported longest losing streak equals the length of the longest run
of consecutive losses. -/
theorem claim_C10_amended_streaks :
    (∀ results : List Bool, results ≠ [] →
        calculate_streaks results = (maximalRuns results).map (fun p => signedRun p.1 p.2))
    ∧ (∀ results : List Bool,
        ((maximalRuns results).map (fun p => List.replicate p.2 p.1)).flatten = results
        ∧ (∀ p ∈ maximalRuns results, 0 < p.2)
        ∧ List.Chain' (fun p q => p.1 ≠ q.1) (maximalRuns results))
    ∧ (∀ results : List Bool,
        maxWinStreak results = (longestRun true results : ℤ)
        ∧ maxLoseStreak results = (longestRun false results : ℤ)) := by
  refine ⟨calculate_streaks_eq_signed_runs, ?_, ?_⟩
  · intro results
    exact ⟨maximalRuns_flatten results, maximalRuns_pos results,
      maximalRuns_alternating results⟩
  · intro results
    by_cases h : results = []
    · subst h
      constructor <;> decide
    · have hsigned := calculate_streaks_eq_signed_runs results h
      have hpos := maximalRuns_pos results
      constructor
      · rw [maxWinStreak, hsigned, filter_pos_signed _ hpos, longestRun,
          foldr_max_cast]
      · rw [maxLoseStreak, hsigned, filter_neg_signed _ hpos, longestRun,
          foldr_min_neg_cast, abs_neg, Int.abs_natCast]

/-- C10 amended, witness: the sequence win-win-loss decomposes into a win
run of length 2 and a loss run of length 1, and the streak list is
`[2, -1]`. -/
theorem claim_C10_amended_streaks_witness :
    ([true, true, false] ≠ ([] : List Bool))
      ∧ calculate_streaks [true, true, false]
          = (maximalRuns [true, true, false]).map (fun p => signedRun p.1 p.2) :=
  ⟨by decide, claim_C10_amended_streaks.1 _ (by decide)⟩

theorem roundHalfEven_nonneg (x : ℚ) (hx : 0 ≤ x) : 0 ≤ roundHalfEven x := by
  have hf : (0 : ℤ) ≤ ⌊x⌋ := Int.floor_nonneg.mpr hx
  unfold roundHalfEven
  split_ifs <;> omega

theorem roundHalfEven_le (x : ℚ) (m : ℤ) (hx : x ≤ m) : roundHalfEven x ≤ m := by
  have hfm : ⌊x⌋ ≤ m := by
    have := Int.floor_le_floor hx
    rwa [Int.floor_intCast] at this
  have hsucc : ¬(x - ⌊x⌋ < 1/2) → ⌊x⌋ + 1 ≤ m := by
    intro h
    have h2 : (1 : ℚ)/2 ≤ x - ⌊x⌋ := le_of_not_lt h
    have hlt : (⌊x⌋ : ℚ) < (m : ℚ) := by
      have : (⌊x⌋ : ℚ) + 1/2 ≤ x := by linarith
      linarith
    have : ⌊x⌋ < m := by exact_mod_cast hlt
    omega
  unfold roundHalfEven
  split_ifs with h1 h2 h3
  · exact hfm
  · exact hsucc h1
  · exact hfm
  · exact hsucc h1

theorem pyRound3_nonneg (x : ℚ) (hx : 0 ≤ x) : 0 ≤ pyRound3 x := by
  unfold pyRound3
  have : (0 : ℤ) ≤ roundHalfEven (x * 1000) :=
    roundHalfEven_nonneg _ (by nlinarith)
  have hc : (0 : ℚ) ≤ (roundHalfEven (x * 1000) : ℚ) := by exact_mod_cast this
  positivity

theorem pyRound3_le_one (x : ℚ) (hx : x ≤ 1) : pyRound3 x ≤ 1 := by
  unfold pyRound3
  have h1000 : roundHalfEven (x * 1000) ≤ (1000 : ℤ) :=
    roundHalfEven_le _ 1000 (by push_cast; nlinarith)
  rw [div_le_one (by norm_num)]
  exact_mod_cast h1000

theorem abs_cast_sub_le_add (a b : ℕ) : |(a : ℚ) - (b : ℚ)| ≤ (a : ℚ) + (b : ℚ) := by
  have ha : (0 : ℚ) ≤ a := Nat.cast_nonneg a
  have hb : (0 : ℚ) ≤ b := Nat.cast_nonneg b
  rcases le_total ((a : ℚ)) ((b : ℚ)) with h | h
  · rw [abs_of_nonpos (by linarith)]
    linarith
  · rw [abs_of_nonneg (by linarith)]
    linarith

theorem rawCompetitiveness_bounds (r : HeadToHeadRecord) :
    0 ≤ rawCompetitiveness r ∧ rawCompetitiveness r ≤ 1 := by
  unfold rawCompetitiveness
  split_ifs with h
  · have ht : (0 : ℚ) < (r.owner1_wins : ℚ) + (r.owner2_wins : ℚ) := by
      exact_mod_cast Nat.cast_pos.mpr h |>.trans_eq (by push_cast; ring)
    have hd : (0 : ℚ) ≤ |(r.owner1_wins : ℚ) - (r.owner2_wins : ℚ)| := abs_nonneg _
    have hle : |(r.owner1_wins : ℚ) - (r.owner2_wins : ℚ)|
        / ((r.owner1_wins : ℚ) + (r.owner2_wins : ℚ)) ≤ 1 :=
      (div_le_one ht).mpr (abs_cast_sub_le_add _ _)
    have hge : 0 ≤ |(r.owner1_wins : ℚ) - (r.owner2_wins : ℚ)|
        / ((r.owner1_wins : ℚ) + (r.owner2_wins : ℚ)) := div_nonneg hd ht.le
    constructor <;> linarith
  · norm_num

theorem rawCompetitiveness_eq_one (r : HeadToHeadRecord)
    (h : rawCompetitiveness r = 1) : r.owner1_wins = r.owner2_wins := by
  unfold rawCompetitiveness at h
  split_ifs at h with hpos
  · have ht : (0 : ℚ) < (r.owner1_wins : ℚ) + (r.owner2_wins : ℚ) := by
      have := Nat.cast_pos (α := ℚ).mpr hpos
      push_cast at this ⊢
      linarith
    have hz : |(r.owner1_wins : ℚ) - (r.owner2_wins : ℚ)|
        / ((r.owner1_wins : ℚ) + (r.owner2_wins : ℚ)) = 0 := by linarith
    have hnum : |(r.owner1_wins : ℚ) - (r.owner2_wins : ℚ)| = 0 := by
      rcases div_eq_zero_iff.mp hz with h0 | h0
      · exact h0
      · exact absurd h0 ht.ne'
    have := abs_eq_zero.mp hnum
    have := sub_eq_zero.mp this
    exact_mod_cast this
  · exact absurd h (by norm_num)

theorem rawCompetitiveness_eq_zero (r : HeadToHeadRecord)
    (h : rawCompetitiveness r = 0) : r.owner1_wins = 0 ∨ r.owner2_wins = 0 := by
  unfold rawCompetitiveness at h
  split_ifs at h with hpos
  · have ht : (0 : ℚ) < (r.owner1_wins : ℚ) + (r.owner2_wins : ℚ) := by
      have := Nat.cast_pos (α := ℚ).mpr hpos
      push_cast at this ⊢
      linarith
    have habs : |(r.owner1_wins : ℚ) - (r.owner2_wins : ℚ)|
        = (r.owner1_wins : ℚ) + (r.owner2_wins : ℚ) := by
      have hd : |(r.owner1_wins : ℚ) - (r.owner2_wins : ℚ)|
          / ((r.owner1_wins : ℚ) + (r.owner2_wins : ℚ)) = 1 := by linarith
      field_simp at hd
      linarith [hd]
    rcases le_total ((r.owner1_wins : ℚ)) ((r.owner2_wins : ℚ)) with hle | hle
    · left
      rw [abs_of_nonpos (by linarith)] at habs
      have : (r.owner1_wins : ℚ) = 0 := by linarith
      exact_mod_cast this
    · right
      rw [abs_of_nonneg (by linarith)] at habs
      have : (r.owner2_wins : ℚ) = 0 := by linarith
      exact_mod_cast this
  · left
    have : r.owner1_wins + r.owner2_wins = 0 := Nat.eq_zero_of_not_pos hpos
    omega

theorem mem_get_rivalry_analysis (records : List HeadToHeadRecord)
    (owners : List Owner) (min_games : ℕ) (e : RivalryEntry)
    (he : e ∈ get_rivalry_analysis records owners min_games) :
    ∃ r ∈ records, min_games ≤ r.total_games ∧ e = mkRivalryEntry owners r := by
  unfold get_rivalry_analysis at he
  have hmem := (List.perm_insertionSort
    (fun a b : RivalryEntry => b.competitiveness_score ≤ a.competitiveness_score) _).mem_iff.mp he
  obtain ⟨r, hr, rfl⟩ := List.mem_map.mp hmem
  obtain ⟨hrrec, hrg⟩ := List.mem_filter.mp hr
  exact ⟨r, hrrec, by simpa using hrg, rfl⟩

/-- C8 counterexample: the stored head-to-head record with 1000 and 1001
wins over 2001 games qualifies at the default threshold of 5 games, and
its competitiveness score — `round(1 - 1/2001, 3)` — equals exactly 1
even though the two win counts differ, because the rounding to three
decimals carries `0.9995...` up to `1.0`. -/
theorem claim_C8_counterexample :
    (get_rivalry_analysis [⟨"a", "b", 1000, 1001, 0, 0, 2001⟩] [] 5).map
        (fun e => (e.owner1_wins, e.owner2_wins, e.competitiveness_score))
      = [(1000, 1001, 1)] := by
  have hraw : rawCompetitiveness ⟨"a", "b", 1000, 1001, 0, 0, 2001⟩ = 2000/2001 := by
    unfold rawCompetitiveness
    norm_num
  have hprod : ((2000 : ℚ)/2001) * 1000 = 2000000/2001 := by norm_num
  have hfloor : ⌊((2000 : ℚ)/2001) * 1000⌋ = 999 := by
    rw [hprod, Int.floor_eq_iff]
    constructor <;> push_cast <;> norm_num
  have hround : roundHalfEven (((2000 : ℚ)/2001) * 1000) = 1000 := by
    unfold roundHalfEven
    rw [hfloor, hprod]
    have hcond : ¬((2000000 : ℚ)/2001 - (999 : ℤ) < 1/2) := by
      push_cast
      rw [not_lt]
      rw [le_sub_iff_add_le]
      norm_num
    rw [if_neg hcond, if_pos (by push_cast; rw [lt_sub_iff_add_lt]; norm_num)]
    norm_num
  have hscore : pyRound3 (rawCompetitiveness ⟨"a", "b", 1000, 1001, 0, 0, 2001⟩) = 1 := by
    rw [hraw]
    unfold pyRound3
    rw [hround]
    norm_num
  have hsingle : get_rivalry_analysis [⟨"a", "b", 1000, 1001, 0, 0, 2001⟩] [] 5
      = [mkRivalryEntry [] ⟨"a", "b", 1000, 1001, 0, 0, 2001⟩] := by
    unfold get_rivalry_analysis
    norm_num [List.insertionSort, List.orderedInsert]
  rw [hsingle]
  simp only [List.map_cons, List.map_nil]
  refine congrArg (· :: []) ?_
  show ((1000 : ℕ), (1001 : ℕ),
      pyRound3 (rawCompetitiveness ⟨"a", "b", 1000, 1001, 0, 0, 2001⟩)) = _
  rw [hscore]

/-- C8 amended: every rivalry entry produced by `get_rivalry_analysis`
carries a competitiveness score in [0, 1] and comes from a stored record
meeting the game threshold; the unrounded competitiveness value
`1 - |w1 - w2| / (w1 + w2)` (0 when there are no wins) lies in [0, 1],
equals 1 only when the two owners' win counts are identical, and equals 0
only when one owner has zero wins against the other; the stored score is
that value rounded to three decimals, which can reach the endpoint 1 (or
0) for merely near-equal (near-one-sided) win counts. -/
theorem claim_C8_amended_competitiveness :
    (∀ (records : List HeadToHeadRecord) (owners : List Owner) (min_games : ℕ),
        ∀ e ∈ get_rivalry_analysis records owners min_games,
          (0 ≤ e.competitiveness_score ∧ e.competitiveness_score ≤ 1)
          ∧ ∃ r ∈ records, min_games ≤ r.total_games ∧ e = mkRivalryEntry owners r)
    ∧ (∀ r : HeadToHeadRecord,
        (0 ≤ rawCompetitiveness r ∧ rawCompetitiveness r ≤ 1)
        ∧ (rawCompetitiveness r = 1 → r.owner1_wins = r.owner2_wins)
        ∧ (rawCompetitiveness r = 0 → r.owner1_wins = 0 ∨ r.owner2_wins = 0)) := by
  constructor
  · intro records owners min_games e he
    obtain ⟨r, hr, hg, rfl⟩ := mem_get_rivalry_analysis records owners min_games e he
    have hb := rawCompetitiveness_bounds r
    exact ⟨⟨pyRound3_nonneg _ hb.1, pyRound3_le_one _ hb.2⟩, r, hr, hg, rfl⟩
  · intro r
    exact ⟨rawCompetitiveness_bounds r, rawCompetitiveness_eq_one r,
      rawCompetitiveness_eq_zero r⟩

/-- C8 amended, witness: the 3-2 rivalry over 5 games is a qualifying
entry and its rounded score lies in [0, 1]. -/
theorem claim_C8_amended_competitiveness_witness :
    (mkRivalryEntry [] ⟨"a", "b", 3, 2, 10, 20, 5⟩
        ∈ get_rivalry_analysis [⟨"a", "b", 3, 2, 10, 20, 5⟩] [] 5)
    ∧ (0 ≤ (mkRivalryEntry [] ⟨"a", "b", 3, 2, 10, 20, 5⟩).competitiveness_score
        ∧ (mkRivalryEntry [] ⟨"a", "b", 3, 2, 10, 20, 5⟩).competitiveness_score ≤ 1) := by
  have hsingle : get_rivalry_analysis [⟨"a", "b", 3, 2, 10, 20, 5⟩] [] 5
      = [mkRivalryEntry [] ⟨"a", "b", 3, 2, 10, 20, 5⟩] := by
    unfold get_rivalry_analysis
    norm_num [List.insertionSort, List.orderedInsert]
  have hmem : mkRivalryEntry [] ⟨"a", "b", 3, 2, 10, 20, 5⟩
      ∈ get_rivalry_analysis [⟨"a", "b", 3, 2, 10, 20, 5⟩] [] 5 := by
    rw [hsingle]
    exact List.mem_singleton_self _
  exact ⟨hmem,
    (claim_C8_amended_competitiveness.1 [⟨"a", "b", 3, 2, 10, 20, 5⟩] [] 5 _ hmem).1⟩

theorem find_bump (m : H2HMap) (k k' : H2HKey) (d : H2HStats) :
    (m.bump k d).find k' = if k' = k then (m.find k').add d else m.find k' := by
  induction m with
  | nil =>
      by_cases h : k' = k
      · subst h
        simp [H2HMap.bump, H2HMap.find]
      · simp only [H2HMap.bump, H2HMap.find, if_neg h]
        rw [if_neg (fun hh : k = k' => h hh.symm)]
  | cons e rest ih =>
      by_cases he : e.1 = k
      · rw [H2HMap.bump, if_pos he]
        by_cases h' : k' = k
        · subst h'
          rw [H2HMap.find, if_pos he, H2HMap.find, if_pos he, if_pos rfl]
        · have hek' : ¬ e.1 = k' := fun hh => h' (hh ▸ he.symm ▸ rfl)
          rw [H2HMap.find, if_neg hek', H2HMap.find, if_neg hek', if_neg h']
      · rw [H2HMap.bump, if_neg he]
        by_cases h' : e.1 = k'
        · rw [H2HMap.find, if_pos h', H2HMap.find, if_pos h',
            if_neg (fun hh : k' = k => he (h' ▸ hh))]
        · rw [H2HMap.find, if_neg h', H2HMap.find, if_neg h', ih]

theorem h2hInv_nil : H2HInv [] := by
  intro a b
  simp [H2HMap.find, H2HStats.zero]

theorem h2hStep_inv (m : Matchup) (acc : H2HMap) (h : H2HInv acc) :
    H2HInv (h2hStep m acc) := by
  unfold h2hStep
  split
  · exact h
  · rename_i w heq
    by_cases hempty : w = ""
    · rw [if_pos hempty]
      exact h
    · rw [if_neg hempty]
      intro a b
      obtain ⟨hab1, hab2⟩ := h a b
      have e1 : ((b, a) = (m.team2_owner_id, m.team1_owner_id))
          ↔ ((a, b) = (m.team1_owner_id, m.team2_owner_id)) := by
        simp [Prod.ext_iff, and_comm]
      have e2 : ((b, a) = (m.team1_owner_id, m.team2_owner_id))
          ↔ ((a, b) = (m.team2_owner_id, m.team1_owner_id)) := by
        simp [Prod.ext_iff, and_comm]
      by_cases hwin : w = m.team1_owner_id
      · rw [if_pos hwin]
        simp only [h2hGames, h2hPoints, find_bump, e1, e2]
        constructor
        · split_ifs <;> (try simp only [H2HStats.add]) <;> omega
        · split_ifs <;> (try simp only [H2HStats.add]) <;> linarith
      · rw [if_neg hwin]
        simp only [h2hGames, h2hPoints, find_bump, e1, e2]
        constructor
        · split_ifs <;> (try simp only [H2HStats.add]) <;> omega
        · split_ifs <;> (try simp only [H2HStats.add]) <;> linarith

theorem foldl_h2h_inv :
    ∀ (ms : List Matchup) (acc : H2HMap), H2HInv acc →
      H2HInv (ms.foldl (fun acc m => h2hStep m acc) acc) := by
  intro ms
  induction ms with
  | nil => intro acc h; exact h
  | cons m rest ih =>
      intro acc h
      exact ih _ (h2hStep_inv m acc h)

theorem calcH2HStats_inv (matchups : List Matchup) : H2HInv (calcH2HStats matchups) :=
  foldl_h2h_inv matchups [] h2hInv_nil

theorem mem_collapseGo (full : H2HMap) :
    ∀ (l : List (H2HKey × H2HStats)) (processed : List H2HKey) (r : HeadToHeadRecord),
      r ∈ collapseGo full l processed → ∃ k : H2HKey, r = mkH2HRecord full k := by
  intro l
  induction l with
  | nil =>
      intro processed r hr
      simp [collapseGo] at hr
  | cons e rest ih =>
      intro processed r hr
      obtain ⟨k, st⟩ := e
      by_cases hpk : sortPair k.1 k.2 ∈ processed
      · rw [collapseGo, if_pos hpk] at hr
        exact ih processed r hr
      · rw [collapseGo, if_neg hpk] at hr
        rcases List.mem_cons.mp hr with rfl | hr2
        · exact ⟨k, rfl⟩
        · exact ih _ r hr2

theorem h2hStep_tie (m : Matchup) (acc : H2HMap)
    (h : m.winner_owner_id = none ∨ m.winner_owner_id = some "") :
    h2hStep m acc = acc := by
  rcases h with h | h
  · unfold h2hStep
    rw [h]
  · unfold h2hStep
    rw [h]
    simp

/-- C1: every record produced by `calculate_head_to_head_records`
satisfies `owner1_wins + owner2_wins ≤ total_games`; its `owner1_points`
equal the points-against recorded by the opposite direction's tally (and
symmetrically for `owner2_points`); and a matchup with no winner
contributes nothing — inserting it anywhere leaves the computed records
unchanged. -/
theorem claim_C1_h2h_invariants :
    (∀ (matchups : List Matchup),
        ∀ r ∈ calculate_head_to_head_records matchups,
          r.owner1_wins + r.owner2_wins ≤ r.total_games
          ∧ r.owner1_points
              = ((calcH2HStats matchups).find (r.owner2_id, r.owner1_id)).points_against
          ∧ r.owner2_points
              = ((calcH2HStats matchups).find (r.owner1_id, r.owner2_id)).points_against)
    ∧ (∀ (ms₁ ms₂ : List Matchup) (tie : Matchup),
        (tie.winner_owner_id = none ∨ tie.winner_owner_id = some "") →
        calculate_head_to_head_records (ms₁ ++ tie :: ms₂)
          = calculate_head_to_head_records (ms₁ ++ ms₂)) := by
  constructor
  · intro matchups r hr
    obtain ⟨k, rfl⟩ :=
      mem_collapseGo (calcH2HStats matchups) (calcH2HStats matchups) [] r hr
    have hinv := calcH2HStats_inv matchups
    obtain ⟨h1, h2⟩ := hinv k.1 k.2
    obtain ⟨h1', h2'⟩ := hinv k.2 k.1
    unfold mkH2HRecord
    refine ⟨le_of_eq h1, h2, h2'⟩
  · intro ms₁ ms₂ tie htie
    have hstats : calcH2HStats (ms₁ ++ tie :: ms₂) = calcH2HStats (ms₁ ++ ms₂) := by
      unfold calcH2HStats
      rw [List.foldl_append, List.foldl_append, List.foldl_cons, h2hStep_tie tie _ htie]
    unfold calculate_head_to_head_records
    rw [hstats]

/-- C1 witness: a single decided matchup produces a record with
1 + 0 ≤ 1 and matching cross-direction points, and inserting a tie
matchup before it leaves the records unchanged. -/
theorem claim_C1_h2h_invariants_witness :
    (mkH2HRecord (calcH2HStats [⟨"2017_1_0", 2017, 1, "alice", "bob", 0, 0, some "alice", false⟩])
          ("alice", "bob")
        ∈ calculate_head_to_head_records
            [⟨"2017_1_0", 2017, 1, "alice", "bob", 0, 0, some "alice", false⟩])
    ∧ ((⟨"2017_1_1", 2017, 1, "alice", "bob", 0, 0, none, false⟩ : Matchup).winner_owner_id = none
        ∨ (⟨"2017_1_1", 2017, 1, "alice", "bob", 0, 0, none, false⟩ : Matchup).winner_owner_id = some "")
    ∧ (mkH2HRecord (calcH2HStats [⟨"2017_1_0", 2017, 1, "alice", "bob", 0, 0, some "alice", false⟩])
            ("alice", "bob")).owner1_wins
        + (mkH2HRecord (calcH2HStats [⟨"2017_1_0", 2017, 1, "alice", "bob", 0, 0, some "alice", false⟩])
            ("alice", "bob")).owner2_wins
        ≤ (mkH2HRecord (calcH2HStats [⟨"2017_1_0", 2017, 1, "alice", "bob", 0, 0, some "alice", false⟩])
            ("alice", "bob")).total_games
    ∧ calculate_head_to_head_records
          ([] ++ (⟨"2017_1_1", 2017, 1, "alice", "bob", 0, 0, none, false⟩ : Matchup)
            :: [⟨"2017_1_0", 2017, 1, "alice", "bob", 0, 0, some "alice", false⟩])
        = calculate_head_to_head_records
            ([] ++ [⟨"2017_1_0", 2017, 1, "alice", "bob", 0, 0, some "alice", false⟩]) := by
  have hab : ("alice" : String) ≤ "bob" := by
    rw [String.le_iff_toList_le]
    decide
  have hba : ¬(("bob" : String) ≤ "alice") := by
    rw [String.le_iff_toList_le]
    decide
  have hne1 : ("alice" : String) ≠ "" := by decide
  have hne2 : ("alice" : String) ≠ "bob" := by decide
  have hne3 : ("bob" : String) ≠ "alice" := by decide
  have hfull : calcH2HStats [⟨"2017_1_0", 2017, 1, "alice", "bob", 0, 0, some "alice", false⟩]
      = [(("alice", "bob"), ⟨1, 0, 0, 0, 1⟩), (("bob", "alice"), ⟨0, 1, 0, 0, 1⟩)] := by
    simp [calcH2HStats, h2hStep, h2hPoints, h2hGames, H2HMap.bump, H2HStats.add,
      H2HStats.zero, hne1, hne2, hne3, Prod.ext_iff]
  have hrec : calculate_head_to_head_records
        [⟨"2017_1_0", 2017, 1, "alice", "bob", 0, 0, some "alice", false⟩]
      = [mkH2HRecord
          (calcH2HStats [⟨"2017_1_0", 2017, 1, "alice", "bob", 0, 0, some "alice", false⟩])
          ("alice", "bob")] := by
    unfold calculate_head_to_head_records
    rw [hfull]
    simp [collapseGo, sortPair, hab, hba]
  have hmem : mkH2HRecord
      (calcH2HStats [⟨"2017_1_0", 2017, 1, "alice", "bob", 0, 0, some "alice", false⟩])
      ("alice", "bob")
      ∈ calculate_head_to_head_records
        [⟨"2017_1_0", 2017, 1, "alice", "bob", 0, 0, some "alice", false⟩] := by
    rw [hrec]
    exact List.mem_singleton_self _
  have htie : ((⟨"2017_1_1", 2017, 1, "alice", "bob", 0, 0, none, false⟩ : Matchup).winner_owner_id
        = none)
      ∨ ((⟨"2017_1_1", 2017, 1, "alice", "bob", 0, 0, none, false⟩ : Matchup).winner_owner_id
        = some "") := Or.inl rfl
  refine ⟨hmem, htie, ?_, ?_⟩
  · exact (claim_C1_h2h_invariants.1 _ _ hmem).1
  · exact claim_C1_h2h_invariants.2 []
      [⟨"2017_1_0", 2017, 1, "alice", "bob", 0, 0, some "alice", false⟩]
      ⟨"2017_1_1", 2017, 1, "alice", "bob", 0, 0, none, false⟩ htie

theorem mem_rowBadBeats (active : List String) (avg : ℚ) (r : ScriptRow) (b : BadBeat) :
    b ∈ rowBadBeats active avg r ↔
      (active.contains r.manager1 = true ∧ avg + 20 ≤ r.team1_score
        ∧ ¬(r.winning_manager = some r.manager1) ∧ b = badBeatOfTeam1 avg r)
      ∨ (active.contains r.manager2 = true ∧ avg + 20 ≤ r.team2_score
        ∧ ¬(r.winning_manager = some r.manager2) ∧ b = badBeatOfTeam2 avg r) := by
  unfold rowBadBeats
  rw [List.mem_append]
  constructor
  · rintro (h | h) <;> [left; right] <;>
      (split_ifs at h with hc
       · simp only [Bool.and_eq_true, Bool.not_eq_true', beq_eq_false_iff_ne,
           decide_eq_true_eq] at hc
         rcases List.mem_singleton.mp h with rfl
         exact ⟨hc.1.1, hc.1.2, hc.2, rfl⟩
       · cases h)
  · rintro (⟨h1, h2, h3, rfl⟩ | ⟨h1, h2, h3, rfl⟩) <;> [left; right] <;>
      (rw [if_pos (by
          simp only [Bool.and_eq_true, Bool.not_eq_true', beq_eq_false_iff_ne,
            decide_eq_true_eq]
          exact ⟨⟨h1, h2⟩, h3⟩)]
       exact List.mem_singleton_self _)

/-- C4 amended: a matchup appears in the pipeline's bad-beats output
exactly when, among the matchups between active-roster managers, one of
its managers is on the active roster, scored at least 20 points above
that season's average score computed from the active-roster matchups
only (the driver filters the dataset before `analyze_bad_beats` runs, so
the averages never see matchups involving departed managers), and is not
the recorded winner. -/
theorem claim_C4_amended_bad_beats (rows : List ScriptRow) (b : BadBeat) :
    b ∈ temporalBadBeats rows ↔
      ∃ r ∈ filterActive rows,
        (activeManagers.contains r.manager1 = true
          ∧ seasonAverage (filterActive rows) r.season + 20 ≤ r.team1_score
          ∧ ¬(r.winning_manager = some r.manager1)
          ∧ b = badBeatOfTeam1 (seasonAverage (filterActive rows) r.season) r)
        ∨ (activeManagers.contains r.manager2 = true
          ∧ seasonAverage (filterActive rows) r.season + 20 ≤ r.team2_score
          ∧ ¬(r.winning_manager = some r.manager2)
          ∧ b = badBeatOfTeam2 (seasonAverage (filterActive rows) r.season) r) := by
  unfold temporalBadBeats analyze_bad_beats
  rw [(List.perm_insertionSort _ _).mem_iff, List.mem_flatMap]
  constructor
  · rintro ⟨r, hr, hb⟩
    exact ⟨r, hr, (mem_rowBadBeats _ _ _ _).mp hb⟩
  · rintro ⟨r, hr, h⟩
    exact ⟨r, hr, (mem_rowBadBeats _ _ _ _).mpr h⟩

/-- C4 counterexample: on `c4rows` the pipeline's active-roster season
average is 100, so Billy's 120-point loss is reported as a bad beat; the
all-matchups average the claim prescribes is 166.5, under which no game
qualifies.  The code and the claim disagree on this input. -/
theorem claim_C4_counterexample :
    (temporalBadBeats c4rows).map (fun b => b.manager) = ["Billy"]
      ∧ badBeatsClaimed c4rows = [] := by
  have hfa : filterActive c4rows
      = [⟨2020, 1, "T1", "T2", 120, 130, "Billy", "Hayden", some "Hayden", false⟩,
         ⟨2020, 2, "T3", "T4", 80, 70, "Michael", "Phoenix", some "Michael", false⟩] := by
    decide
  have havg : seasonAverage
      [⟨2020, 1, "T1", "T2", 120, 130, "Billy", "Hayden", some "Hayden", false⟩,
       ⟨2020, 2, "T3", "T4", 80, 70, "Michael", "Phoenix", some "Michael", false⟩] 2020
      = 100 := by
    unfold seasonAverage
    simp [meanQ]
    norm_num
  have hall : seasonAverage c4rows 2020 = 333/2 := by
    unfold seasonAverage c4rows
    simp [meanQ]
    norm_num
  have hrb1 : rowBadBeats activeManagers 100
      ⟨2020, 1, "T1", "T2", 120, 130, "Billy", "Hayden", some "Hayden", false⟩
      = [badBeatOfTeam1 100
          ⟨2020, 1, "T1", "T2", 120, 130, "Billy", "Hayden", some "Hayden", false⟩] := by
    have h1 : activeManagers.contains "Billy" = true := by decide
    have h2 : activeManagers.contains "Hayden" = true := by decide
    have h3 : decide ((100 : ℚ) + 20 ≤ 120) = true := decide_eq_true (by norm_num)
    have h4 : decide ((100 : ℚ) + 20 ≤ 130) = true := decide_eq_true (by norm_num)
    unfold rowBadBeats
    simp [h1, h2, h3, h4]
    all_goals decide
  have hrb2 : rowBadBeats activeManagers 100
      ⟨2020, 2, "T3", "T4", 80, 70, "Michael", "Phoenix", some "Michael", false⟩ = [] := by
    have h2 : decide ((100 : ℚ) + 20 ≤ 80) = false := decide_eq_false (by norm_num)
    have h3 : decide ((100 : ℚ) + 20 ≤ 70) = false := decide_eq_false (by norm_num)
    unfold rowBadBeats
    simp [h2, h3]
  have hcb1 : rowBadBeats activeManagers (333/2)
      ⟨2020, 1, "T1", "T2", 120, 130, "Billy", "Hayden", some "Hayden", false⟩ = [] := by
    have h2 : decide ((333 : ℚ)/2 + 20 ≤ 120) = false := decide_eq_false (by norm_num)
    have h3 : decide ((333 : ℚ)/2 + 20 ≤ 130) = false := decide_eq_false (by norm_num)
    unfold rowBadBeats
    simp [h2, h3]
  have hcb2 : rowBadBeats activeManagers (333/2)
      ⟨2020, 2, "T3", "T4", 80, 70, "Michael", "Phoenix", some "Michael", false⟩ = [] := by
    have h2 : decide ((333 : ℚ)/2 + 20 ≤ 80) = false := decide_eq_false (by norm_num)
    have h3 : decide ((333 : ℚ)/2 + 20 ≤ 70) = false := decide_eq_false (by norm_num)
    unfold rowBadBeats
    simp [h2, h3]
  constructor
  · unfold temporalBadBeats analyze_bad_beats
    rw [hfa]
    simp only [List.flatMap_cons, List.flatMap_nil, havg, hrb1, hrb2,
      List.append_nil, List.nil_append]
    simp [List.insertionSort]
    rfl
  · unfold badBeatsClaimed
    rw [hfa]
    simp only [List.flatMap_cons, List.flatMap_nil, hall, hcb1, hcb2,
      List.append_nil, List.nil_append]
    simp [List.insertionSort]

/-- C3 counterexample: saving the empty matchup list returns without
writing, so a pre-existing file keeps its stale row instead of being
overwritten with just the header. -/
theorem claim_C3_counterexample :
    save_matchups [] (some ⟨matchupsHeader, [[Cell.str "stale"]]⟩)
        = some ⟨matchupsHeader, [[Cell.str "stale"]]⟩
    ∧ save_matchups [] (some ⟨matchupsHeader, [[Cell.str "stale"]]⟩)
        ≠ some ⟨matchupsHeader, ([] : List (List Cell))⟩ := by
  constructor <;> decide

/-- C3 amended: for every non-empty input list each save operation is a
full-file overwrite — afterwards the file holds exactly the header row
plus one row per entity, regardless of the previous contents; for the
empty list every save returns without writing, leaving the previous file
contents (or absence) in place. -/
theorem claim_C3_amended_full_overwrite :
    (∀ (owners : List Owner) (prev : Option CSVFile), owners ≠ [] →
        save_owners owners prev = some ⟨ownersHeader, owners.map ownerToRow⟩)
    ∧ (∀ prev : Option CSVFile, save_owners [] prev = prev)
    ∧ (∀ (matchups : List Matchup) (prev : Option CSVFile), matchups ≠ [] →
        save_matchups matchups prev = some ⟨matchupsHeader, matchups.map matchupToRow⟩)
    ∧ (∀ prev : Option CSVFile, save_matchups [] prev = prev)
    ∧ (∀ (records : List SeasonRecord) (prev : Option CSVFile), records ≠ [] →
        save_season_records records prev
          = some ⟨seasonRecordsHeader, records.map seasonRecordToRow⟩)
    ∧ (∀ prev : Option CSVFile, save_season_records [] prev = prev)
    ∧ (∀ (records : List HeadToHeadRecord) (prev : Option CSVFile), records ≠ [] →
        save_head_to_head_records records prev
          = some ⟨headToHeadHeader, records.map h2hRecordToRow⟩)
    ∧ (∀ prev : Option CSVFile, save_head_to_head_records [] prev = prev) := by
  refine ⟨?_, fun prev => rfl, ?_, fun prev => rfl, ?_, fun prev => rfl, ?_,
    fun prev => rfl⟩ <;>
    (intro l prev hne
     first
     | exact if_neg (by simpa [List.isEmpty_iff] using hne)
     | skip)

/-- C3 amended, witness: saving one head-to-head record over a stale
file replaces it with exactly the header and that record's row. -/
theorem claim_C3_amended_full_overwrite_witness :
    ([(⟨"a", "b", 1, 0, 0, 0, 1⟩ : HeadToHeadRecord)] ≠ ([] : List HeadToHeadRecord))
    ∧ save_head_to_head_records [⟨"a", "b", 1, 0, 0, 0, 1⟩]
          (some ⟨headToHeadHeader, [[Cell.str "stale"]]⟩)
        = some ⟨headToHeadHeader, [h2hRecordToRow ⟨"a", "b", 1, 0, 0, 0, 1⟩]⟩ := by
  refine ⟨by decide, ?_⟩
  exact claim_C3_amended_full_overwrite.2.2.2.2.2.2.1
    [⟨"a", "b", 1, 0, 0, 0, 1⟩] (some ⟨headToHeadHeader, [[Cell.str "stale"]]⟩)
    (by decide)
